import Mathlib

/-
  Verification of the toast-overlay lifecycle controller
  (src/src/seedsigner/gui/toast.py).

  The run method of BaseToastOverlayManagerThread is embedded as a
  deterministic small-step machine at statement granularity.  Time is
  measured in ticks of 0.1 s (the polling sleep interval of the source),
  so a configured delay or duration of d seconds is 10*d ticks.  All
  cross-thread interaction (request_stop writing keep_running, the
  controller host setting the toggle flag, other display consumers
  acquiring and releasing the renderer lock, pending hardware input,
  the custom continuation predicate, and injected unhandled exceptions)
  is supplied by an environment oracle indexed by the step counter.
-/

namespace Toast

/-- Who currently holds the renderer display lock. -/
inductive Holder
  | free
  | self
  | other
deriving DecidableEq, Repr

/-- Observable events of one run, in program order. -/
inductive Event
  | acquire
  | release
  | observedExtHeld
  | captureFrame
  | paint
  | setRendered
  | inputExit
  | durationExit
  | fault
  | restore
  | finalRelease
deriving DecidableEq, Repr

/-- Program counter of the run method, one point per statement group. -/
inductive PC
  | entry
  | sleepAct
  | acquiring
  | loopCheck
  | inputCheck
  | yieldCheck
  | releaseYield
  | waitLocked
  | reacquiring
  | paintCheck
  | capture
  | render
  | setRend
  | durCheck
  | sleepStep
  | finallyStart
  | finallyRelease
  | done
deriving DecidableEq, Repr

/-- External world, indexed by the step counter.  stopSet models another
thread executing keep_running = False (request_stop); yieldSet models
toggle_renderer_lock(); input models hw_inputs.has_any_input(); pred
models should_keep_running(); extRelease and extAcquire model another
display consumer releasing or grabbing the renderer lock; fault models an
unhandled exception raised inside the try body at that step. -/
structure Env where
  stopSet : Nat → Bool
  yieldSet : Nat → Bool
  input : Nat → Bool
  pred : Nat → Bool
  extRelease : Nat → Bool
  extAcquire : Nat → Bool
  fault : Nat → Bool

/-- Timing configuration of one controller: activation_delay and duration
in seconds, exactly the two constructor arguments of the source. -/
structure Cfg where
  activation_delay : Nat
  duration : Nat
deriving DecidableEq, Repr

/-- Image painted by toast.render(); an opaque frame identifier. -/
def toastImage : Nat := 1

/-- Mutable state of one run of the controller thread.  t counts ticks of
0.1 s since the start of run (start = time.time()); n is the step counter
used to index the environment; prev is previous_screen_state; display is
the current content of the shared screen; trace records the observable
events so far. -/
structure RunState where
  pc : PC
  t : Nat
  n : Nat
  keep_running : Bool
  toggle : Bool
  has_rendered : Bool
  prev : Option Nat
  holder : Holder
  display : Nat
  trace : List Event
deriving DecidableEq, Repr

/-- Statements covered by the try block; the finally clause and the
terminal state are outside it. -/
def tryBody (pc : PC) : Bool :=
  match pc with
  | .finallyStart => false
  | .finallyRelease => false
  | .done => false
  | _ => true

/-- Deadline in ticks: the duration check of the source compares elapsed
seconds against activation_delay + duration. -/
def D (cfg : Cfg) : Nat := 10 * (cfg.activation_delay + cfg.duration)

/-- Effects of other threads during one step: keep_running can be cleared,
the toggle flag can be set, an external holder can release the lock, and
an external consumer can grab the lock when it is free. -/
def envPhase (env : Env) (s : RunState) : RunState :=
  let kr := s.keep_running && !(env.stopSet s.n)
  let tg := s.toggle || env.yieldSet s.n
  let h1 := if s.holder = Holder.other ∧ env.extRelease s.n = true then Holder.free else s.holder
  let h2 := if h1 = Holder.free ∧ env.extAcquire s.n = true then Holder.other else h1
  { s with keep_running := kr, toggle := tg, holder := h2 }

/-- One statement of the run body, translated line by line from the
source: initialisation, the activation sleep, the blocking acquire, the
while condition, the input check, the lock-yield handshake, the first-time
paint, the duration check, the polling sleep, and the finally clause. -/
def ctrlStep (cfg : Cfg) (env : Env) (s : RunState) : RunState :=
  match s.pc with
  | .entry =>
      { s with has_rendered := false, prev := Option.none, pc := .sleepAct, n := s.n + 1 }
  | .sleepAct =>
      { s with t := s.t + 10 * cfg.activation_delay, pc := .acquiring, n := s.n + 1 }
  | .acquiring =>
      if s.holder = Holder.free then
        { s with holder := Holder.self, pc := .loopCheck,
                 trace := s.trace ++ [Event.acquire], n := s.n + 1 }
      else
        { s with t := s.t + 1, n := s.n + 1 }
  | .loopCheck =>
      if s.keep_running = true ∧ env.pred s.n = true then
        { s with pc := .inputCheck, n := s.n + 1 }
      else
        { s with pc := .finallyStart, n := s.n + 1 }
  | .inputCheck =>
      if env.input s.n = true then
        { s with pc := .finallyStart, trace := s.trace ++ [Event.inputExit], n := s.n + 1 }
      else
        { s with pc := .yieldCheck, n := s.n + 1 }
  | .yieldCheck =>
      if s.toggle = true then
        { s with toggle := false, pc := .releaseYield, n := s.n + 1 }
      else
        { s with pc := .paintCheck, n := s.n + 1 }
  | .releaseYield =>
      { s with holder := Holder.free, trace := s.trace ++ [Event.release],
               pc := .waitLocked, n := s.n + 1 }
  | .waitLocked =>
      if s.holder = Holder.free then
        { s with t := s.t + 1, n := s.n + 1 }
      else
        { s with pc := .reacquiring, trace := s.trace ++ [Event.observedExtHeld], n := s.n + 1 }
  | .reacquiring =>
      if s.holder = Holder.free then
        { s with holder := Holder.self, pc := .paintCheck,
                 trace := s.trace ++ [Event.acquire], n := s.n + 1 }
      else
        { s with t := s.t + 1, n := s.n + 1 }
  | .paintCheck =>
      if s.has_rendered = true then
        { s with pc := .durCheck, n := s.n + 1 }
      else
        { s with pc := .capture, n := s.n + 1 }
  | .capture =>
      { s with prev := some s.display, trace := s.trace ++ [Event.captureFrame],
               pc := .render, n := s.n + 1 }
  | .render =>
      { s with display := toastImage, trace := s.trace ++ [Event.paint],
               pc := .setRend, n := s.n + 1 }
  | .setRend =>
      { s with has_rendered := true, trace := s.trace ++ [Event.setRendered],
               pc := .durCheck, n := s.n + 1 }
  | .durCheck =>
      if D cfg < s.t ∧ s.has_rendered = true then
        { s with pc := .finallyStart, trace := s.trace ++ [Event.durationExit], n := s.n + 1 }
      else
        { s with pc := .sleepStep, n := s.n + 1 }
  | .sleepStep =>
      { s with t := s.t + 1, pc := .loopCheck, n := s.n + 1 }
  | .finallyStart =>
      if s.has_rendered = true ∧ s.holder ≠ Holder.free then
        { s with display := s.prev.getD s.display,
                 trace := s.trace ++ [Event.restore], pc := .finallyRelease, n := s.n + 1 }
      else
        { s with pc := .finallyRelease, n := s.n + 1 }
  | .finallyRelease =>
      { s with holder := Holder.free, trace := s.trace ++ [Event.finalRelease],
               pc := .done, n := s.n + 1 }
  | .done => s

/-- One full step: the terminal state is absorbing; otherwise other
threads act first, then an injected fault (inside the try body only)
jumps to the finally clause, and otherwise the current statement runs. -/
def step (cfg : Cfg) (env : Env) (s : RunState) : RunState :=
  if s.pc = PC.done then s
  else
    let s1 := envPhase env s
    if env.fault s.n = true ∧ tryBody s1.pc = true then
      { s1 with pc := .finallyStart, trace := s1.trace ++ [Event.fault], n := s1.n + 1 }
    else ctrlStep cfg env s1

/-- Iterated stepping. -/
def stepN (cfg : Cfg) (env : Env) : Nat → RunState → RunState
  | 0, s => s
  | Nat.succ k, s => stepN cfg env k (step cfg env s)

/-- State at the start of run.  Modelled from the spec: BaseThread (not
under src) initialises keep_running to true before run begins; d0 is the
frame content currently on the display. -/
def initState (d0 : Nat) : RunState :=
  { pc := .entry, t := 0, n := 0, keep_running := true, toggle := false,
    has_rendered := false, prev := Option.none, holder := Holder.free,
    display := d0, trace := [] }

/-- The whole run: N steps of the machine from the initial state. -/
def run (cfg : Cfg) (env : Env) (N : Nat) (d0 : Nat) : RunState :=
  stepN cfg env N (initState d0)

/-- Environment with no external activity at all and the default
continuation predicate (should_keep_running of the base class, always
true). -/
def quietEnv : Env :=
  { stopSet := fun _ => false, yieldSet := fun _ => false, input := fun _ => false,
    pred := fun _ => true, extRelease := fun _ => false, extAcquire := fun _ => false,
    fault := fun _ => false }

end Toast

namespace Toast

/-- Visual payload of one toast, the fields the variants actually set. -/
structure ToastOverlayModel where
  icon_name : String
  label_text : String
deriving DecidableEq, Repr

/-- Fields the base constructor stores on the manager thread. -/
structure MgrState where
  activation_delay : Nat
  duration : Nat
  toggle_flag : Bool
  toast : ToastOverlayModel
deriving DecidableEq, Repr

/-- State of the shared HardwareButtons singleton that the constructor
mutates. -/
structure InputsState where
  override_ind : Bool
deriving DecidableEq, Repr

/-- Modelled from the spec: the MicroSD action discriminators (the
seedsigner.hardware.microsd module is not under src); two distinct
constant strings naming the two mutually exclusive state-change events. -/
def ACTION_INSERTED : String := "add"

/-- Modelled from the spec: the second MicroSD action discriminator. -/
def ACTION_REMOVED : String := "remove"

/-- Icon constant used by both variants. -/
def SDCARD_ICON : String := "sdcard"

/-- The base instantiate_toast, which raises because a subclass must
override it. -/
def base_instantiate_toast : Unit → Except String ToastOverlayModel :=
  fun _ => Except.error "Must be implemented by subclass"

/-- The base constructor: stores the timing fields, clears the toggle
flag, sets override_ind on the shared inputs singleton, and only then
calls the instantiate_toast hook; a raising hook propagates as an error
after the singleton was already mutated. -/
def baseToastInitSt (activation_delay duration : Nat)
    (hook : Unit → Except String ToastOverlayModel)
    (inputs : InputsState) : Except String MgrState × InputsState :=
  let inputs1 : InputsState := { inputs with override_ind := true }
  match hook () with
  | Except.error e => (Except.error e, inputs1)
  | Except.ok toast =>
      (Except.ok { activation_delay := activation_delay, duration := duration,
                   toggle_flag := false, toast := toast }, inputs1)

/-- Constructor of RemoveSDCardToastManagerThread: delay 3 s, duration
1e6 s, payload fixed. -/
def removeSDCardInitSt (inputs : InputsState) : Except String MgrState × InputsState :=
  baseToastInitSt 3 1000000
    (fun _ => Except.ok { icon_name := SDCARD_ICON,
                          label_text := "Security tip:\nRemove SD card" })
    inputs

/-- Constructor of SDCardStateChangeToastManagerThread: validates the
action discriminator before the base constructor runs; an invalid action
raises immediately, leaving the inputs singleton untouched. -/
def sdCardStateChangeInitSt (action : String)
    (inputs : InputsState) : Except String MgrState × InputsState :=
  if action = ACTION_INSERTED ∨ action = ACTION_REMOVED then
    let message := if action = ACTION_REMOVED then "SD card removed" else "SD card inserted"
    baseToastInitSt 0 3
      (fun _ => Except.ok { icon_name := SDCARD_ICON, label_text := message })
      inputs
  else
    (Except.error ("Invalid MicroSD action: " ++ action), inputs)

end Toast

namespace Toast

/-- Splitting an iterated run into two phases. -/
theorem stepN_add (cfg : Cfg) (env : Env) (a b : Nat) (s : RunState) :
    stepN cfg env (a + b) s = stepN cfg env b (stepN cfg env a s) := by
  induction a generalizing s with
  | zero => simp [stepN]
  | succ a ih =>
      have h : a + 1 + b = (a + b) + 1 := by omega
      rw [h]
      show stepN cfg env (a + b) (step cfg env s) = _
      rw [ih]
      rfl

theorem envPhase_pc (env : Env) (s : RunState) : (envPhase env s).pc = s.pc := rfl

theorem envPhase_trace (env : Env) (s : RunState) : (envPhase env s).trace = s.trace := rfl

theorem envPhase_holder_self (env : Env) (s : RunState) (h : s.holder = Holder.self) :
    (envPhase env s).holder = Holder.self := by
  simp [envPhase, h]

theorem envPhase_quiet (s : RunState) : envPhase quietEnv s = s := by
  simp [envPhase, quietEnv]

end Toast

namespace Toast

/-- Environment of the C1 scenario: request_stop arrives at step 1, while
the controller is sleeping through the activation delay; nothing else
happens. -/
def stopDuringDelayEnv : Env :=
  { quietEnv with stopSet := fun n => n == 1 }

/-- Claim C1, counterexample: with activation_delay 2 and duration 3 and a
stop requested during the activation delay, the run completes (the delay
itself is uncancellable and the lock is acquired) but the while condition
is tested before any paint, so the toast is never painted and no frame is
ever restored, contradicting the claim that the paint happens at t = 2. -/
theorem c1_counterexample :
    (run ⟨2, 3⟩ stopDuringDelayEnv 6 7).pc = PC.done ∧
    Event.paint ∉ (run ⟨2, 3⟩ stopDuringDelayEnv 6 7).trace ∧
    Event.restore ∉ (run ⟨2, 3⟩ stopDuringDelayEnv 6 7).trace := by
  decide

/-- Claim C1, amended: with activation_delay 2 and duration 3 and a stop
requested at t = 1 during the activation delay, the delay still completes
and the lock is acquired near t = 2, but the stop is observed by the loop
condition before any paint, so the run terminates at t = 2.0 (tick 20)
having only acquired and released the lock, with the display untouched. -/
theorem c1_stop_during_delay_terminates_without_paint :
    run ⟨2, 3⟩ stopDuringDelayEnv 6 7 =
      ⟨PC.done, 20, 6, false, false, false, Option.none, Holder.free, 7,
       [Event.acquire, Event.finalRelease]⟩ := by
  decide

/-- Claim C6: both configuration errors surface at construction time.
Constructing the base class (whose instantiate_toast hook is not
overridden) errors during construction, and constructing the state-change
variant with an invalid action discriminator errors immediately, with the
shared inputs singleton left untouched (the base constructor, which would
create the thread state, is never reached). -/
theorem c6_construction_errors :
    (∀ d dur inputs, (baseToastInitSt d dur base_instantiate_toast inputs).1 =
      Except.error "Must be implemented by subclass") ∧
    (∀ action inputs, ¬(action = ACTION_INSERTED ∨ action = ACTION_REMOVED) →
      sdCardStateChangeInitSt action inputs =
        (Except.error ("Invalid MicroSD action: " ++ action), inputs)) := by
  constructor
  · intro d dur inputs
    rfl
  · intro action inputs h
    simp [sdCardStateChangeInitSt, h]

/-- Claim C6, witness: the two error paths at concrete inputs. -/
theorem c6_construction_errors_witness :
    (baseToastInitSt 0 3 base_instantiate_toast ⟨false⟩).1 =
      Except.error "Must be implemented by subclass" ∧
    sdCardStateChangeInitSt "eject" ⟨false⟩ =
      (Except.error ("Invalid MicroSD action: " ++ "eject"), ⟨false⟩) := by
  exact ⟨c6_construction_errors.1 0 3 ⟨false⟩,
         c6_construction_errors.2 "eject" ⟨false⟩ (by decide)⟩

/-- Claim C10: every construction that reaches the base constructor sets
override_ind to true on the shared hardware-inputs singleton, before
start() could ever be called; in particular every successful construction
of either variant mutates that collaborator. -/
theorem c10_construction_mutates_inputs :
    (∀ d dur hook inputs, ((baseToastInitSt d dur hook inputs).2).override_ind = true) ∧
    (∀ inputs, ((removeSDCardInitSt inputs).2).override_ind = true) ∧
    (∀ action inputs m i2, sdCardStateChangeInitSt action inputs = (Except.ok m, i2) →
      i2.override_ind = true) := by
  refine ⟨?_, ?_, ?_⟩
  · intro d dur hook inputs
    unfold baseToastInitSt
    cases hook () <;> rfl
  · intro inputs
    rfl
  · intro action inputs m i2 h
    unfold sdCardStateChangeInitSt at h
    by_cases hv : action = ACTION_INSERTED ∨ action = ACTION_REMOVED
    · simp only [hv, if_pos] at h
      have : i2 = { inputs with override_ind := true } := by
        have h2 := congrArg Prod.snd h
        simp [baseToastInitSt] at h2
        exact h2.symm
      simp [this]
    · simp [hv] at h

/-- Claim C10, witness: a concrete successful construction of the
state-change variant has mutated the singleton. -/
theorem c10_construction_mutates_inputs_witness :
    (InputsState.mk true).override_ind = true := by
  refine c10_construction_mutates_inputs.2.2 ACTION_INSERTED ⟨false⟩
    ⟨0, 3, false, ⟨SDCARD_ICON, "SD card inserted"⟩⟩ ⟨true⟩ ?_
  rfl

end Toast

namespace Toast

/-- Program points of the while body at which the controller holds the
renderer lock. -/
def holdsLockAt (pc : PC) : Bool :=
  match pc with
  | .loopCheck => true
  | .inputCheck => true
  | .yieldCheck => true
  | .releaseYield => true
  | .paintCheck => true
  | .capture => true
  | .render => true
  | .setRend => true
  | .durCheck => true
  | .sleepStep => true
  | _ => false

/-- Paint-ordering invariant: inside the while body the controller holds
the lock, and has_rendered is only ever true after a paint happened. -/
def Inv3 (s : RunState) : Prop :=
  (holdsLockAt s.pc = true → s.holder = Holder.self) ∧
  (s.pc = PC.setRend → Event.paint ∈ s.trace) ∧
  (s.has_rendered = true → Event.paint ∈ s.trace)

theorem inv3_env (env : Env) (s : RunState) (h : Inv3 s) : Inv3 (envPhase env s) := by
  obtain ⟨h1, h2, h3⟩ := h
  exact ⟨fun hh => envPhase_holder_self env s (h1 hh), h2, h3⟩

theorem inv3_ctrl (cfg : Cfg) (env : Env) (s : RunState) (h : Inv3 s) :
    Inv3 (ctrlStep cfg env s) := by
  obtain ⟨h1, h2, h3⟩ := h
  unfold Inv3 at *
  cases hpc : s.pc <;>
    simp only [ctrlStep, hpc] <;>
    (try split_ifs) <;>
    refine ⟨fun ha => ?_, fun hb => ?_, fun hr => ?_⟩ <;>
    simp_all [holdsLockAt, List.mem_append]

theorem step_not_done (cfg : Cfg) (env : Env) (s : RunState) (hd : ¬s.pc = PC.done) :
    step cfg env s =
      if env.fault s.n = true ∧ tryBody (envPhase env s).pc = true then
        { envPhase env s with
          pc := PC.finallyStart,
          trace := (envPhase env s).trace ++ [Event.fault],
          n := (envPhase env s).n + 1 }
      else ctrlStep cfg env (envPhase env s) := by
  simp [step, hd]

theorem inv3_step (cfg : Cfg) (env : Env) (s : RunState) (h : Inv3 s) :
    Inv3 (step cfg env s) := by
  by_cases hd : s.pc = PC.done
  · simpa [step, hd] using h
  · rw [step_not_done cfg env s hd]
    by_cases hf : env.fault s.n = true ∧ tryBody (envPhase env s).pc = true
    · rw [if_pos hf]
      obtain ⟨h1, h2, h3⟩ := inv3_env env s h
      refine ⟨fun ha => ?_, fun hb => ?_, fun hr => ?_⟩
      · simp [holdsLockAt] at ha
      · simp at hb
      · exact List.mem_append_left _ (h3 hr)
    · rw [if_neg hf]
      exact inv3_ctrl cfg env (envPhase env s) (inv3_env env s h)

theorem run_succ (cfg : Cfg) (env : Env) (N : Nat) (d0 : Nat) :
    run cfg env (N + 1) d0 = step cfg env (run cfg env N d0) := by
  rw [run, stepN_add cfg env N 1]
  rfl

theorem inv3_run (cfg : Cfg) (env : Env) (N : Nat) (d0 : Nat) :
    Inv3 (run cfg env N d0) := by
  induction N with
  | zero =>
      refine ⟨?_, ?_, ?_⟩ <;> simp [run, stepN, initState, holdsLockAt, Inv3]
  | succ N ih =>
      rw [run_succ]
      exact inv3_step cfg env _ ih

/-- Claim C3: in every execution, under every environment, the controller
never captures the previous frame and never paints without holding the
lock, and has_rendered is never true before a paint completed. -/
theorem c3_paint_under_lock (cfg : Cfg) (env : Env) (N : Nat) (d0 : Nat) :
    (((run cfg env N d0).pc = PC.capture ∨ (run cfg env N d0).pc = PC.render) →
      (run cfg env N d0).holder = Holder.self) ∧
    ((run cfg env N d0).has_rendered = true → Event.paint ∈ (run cfg env N d0).trace) := by
  obtain ⟨h1, h2, h3⟩ := inv3_run cfg env N d0
  refine ⟨fun hp => ?_, h3⟩
  rcases hp with hp | hp <;> exact h1 (by rw [hp] <;> rfl)

/-- Claim C3, witness: a concrete quiet run about to paint holds the lock,
and once has_rendered is true a paint is in the trace. -/
theorem c3_paint_under_lock_witness :
    (run ⟨0, 3⟩ quietEnv 8 7).holder = Holder.self ∧
    Event.paint ∈ (run ⟨0, 3⟩ quietEnv 10 7).trace := by
  exact ⟨(c3_paint_under_lock ⟨0, 3⟩ quietEnv 8 7).1 (Or.inr (by decide)),
         (c3_paint_under_lock ⟨0, 3⟩ quietEnv 10 7).2 (by decide)⟩

/-- The terminal cleanup ran exactly once and last: the trace ends with
the final release, preceded by at most one restore, and neither event
occurs anywhere earlier. -/
def cleanupOnce (tr : List Event) : Prop :=
  ∃ t0, (tr = t0 ++ [Event.finalRelease] ∨ tr = t0 ++ [Event.restore, Event.finalRelease]) ∧
    Event.restore ∉ t0 ∧ Event.finalRelease ∉ t0

/-- Cleanup invariant: before the finally clause neither cleanup event has
happened; at the final release at most the restore has happened; in the
terminal state the cleanup is in the trace exactly once, at the end. -/
def Inv2 (s : RunState) : Prop :=
  if s.pc = PC.done then cleanupOnce s.trace
  else if s.pc = PC.finallyRelease then
    Event.finalRelease ∉ s.trace ∧
      (Event.restore ∉ s.trace ∨
        ∃ t0, s.trace = t0 ++ [Event.restore] ∧ Event.restore ∉ t0 ∧ Event.finalRelease ∉ t0)
  else Event.restore ∉ s.trace ∧ Event.finalRelease ∉ s.trace

theorem inv2_env (env : Env) (s : RunState) (h : Inv2 s) : Inv2 (envPhase env s) := h

theorem inv2_ctrl (cfg : Cfg) (env : Env) (s : RunState) (h : Inv2 s) :
    Inv2 (ctrlStep cfg env s) := by
  unfold Inv2 at *
  cases hpc : s.pc <;> simp only [hpc] at h <;>
    simp only [ctrlStep, hpc] <;> (try split_ifs) <;>
    simp_all [cleanupOnce, List.mem_append]
  all_goals
    rcases h.2 with hr | ⟨t0, het, hr0, hf0⟩
  · exact ⟨s.trace, Or.inl rfl, hr, h.1⟩
  · refine ⟨t0, Or.inr ?_, hr0, hf0⟩
    rw [het, List.append_assoc]
    rfl

theorem inv2_step (cfg : Cfg) (env : Env) (s : RunState) (h : Inv2 s) :
    Inv2 (step cfg env s) := by
  by_cases hd : s.pc = PC.done
  · simpa [step, hd] using h
  · rw [step_not_done cfg env s hd]
    by_cases hf : env.fault s.n = true ∧ tryBody (envPhase env s).pc = true
    · rw [if_pos hf]
      have h2 := inv2_env env s h
      have hpcb : tryBody (envPhase env s).pc = true := hf.2
      have hnd : ¬((envPhase env s).pc = PC.done) := by
        intro hx
        rw [hx] at hpcb
        exact absurd hpcb (by decide)
      have hnf : ¬((envPhase env s).pc = PC.finallyRelease) := by
        intro hx
        rw [hx] at hpcb
        exact absurd hpcb (by decide)
      unfold Inv2 at h2
      rw [if_neg hnd, if_neg hnf] at h2
      unfold Inv2
      simp [List.mem_append, h2.1, h2.2]
    · rw [if_neg hf]
      exact inv2_ctrl cfg env (envPhase env s) (inv2_env env s h)

theorem inv2_run (cfg : Cfg) (env : Env) (N : Nat) (d0 : Nat) :
    Inv2 (run cfg env N d0) := by
  induction N with
  | zero => simp [run, stepN, initState, Inv2]
  | succ N ih =>
      rw [run_succ]
      exact inv2_step cfg env _ ih

theorem step_at_finallyStart (cfg : Cfg) (env : Env) (s : RunState)
    (hpc : s.pc = PC.finallyStart) :
    step cfg env s = ctrlStep cfg env (envPhase env s) := by
  have h2 : tryBody (envPhase env s).pc = false := by
    show tryBody s.pc = false
    rw [hpc]
    rfl
  rw [step_not_done cfg env s (by simp [hpc])]
  rw [if_neg (by simp [h2])]

theorem ctrlStep_finallyStart (cfg : Cfg) (env : Env) (s : RunState)
    (hpc : s.pc = PC.finallyStart) :
    ctrlStep cfg env s =
      if s.has_rendered = true ∧ s.holder ≠ Holder.free then
        { s with display := s.prev.getD s.display, trace := s.trace ++ [Event.restore],
                 pc := PC.finallyRelease, n := s.n + 1 }
      else { s with pc := PC.finallyRelease, n := s.n + 1 } := by
  simp only [ctrlStep, hpc]

/-- Claim C2: on every exit path of every environment, once the run
reaches its terminal state the cleanup has executed exactly once and in
order (an optional restore directly followed by the final release, at the
very end of the trace, with neither event occurring earlier); and at the
entry of the finally clause, if has_rendered is true and this controller
holds the lock, the step restores the previous frame to the display and
proceeds to the release. -/
theorem c2_cleanup_exactly_once (cfg : Cfg) (env : Env) (N : Nat) (d0 : Nat)
    (s : RunState) :
    ((run cfg env N d0).pc = PC.done → cleanupOnce (run cfg env N d0).trace) ∧
    (s.pc = PC.finallyStart → s.has_rendered = true → s.holder = Holder.self →
      (step cfg env s).pc = PC.finallyRelease ∧
      (step cfg env s).trace = s.trace ++ [Event.restore] ∧
      (step cfg env s).display = s.prev.getD s.display) := by
  constructor
  · intro hdone
    have h := inv2_run cfg env N d0
    unfold Inv2 at h
    simpa [hdone] using h
  · intro hpc hhr hold
    have hps : (envPhase env s).pc = PC.finallyStart := hpc
    have hhr2 : (envPhase env s).has_rendered = true := hhr
    have holdp : (envPhase env s).holder = Holder.self := envPhase_holder_self env s hold
    rw [step_at_finallyStart cfg env s hpc]
    rw [ctrlStep_finallyStart cfg env (envPhase env s) hps]
    rw [if_pos ⟨hhr2, by simp [holdp]⟩]
    exact ⟨rfl, rfl, rfl⟩

set_option maxRecDepth 4000 in
/-- Claim C2, witness: a concrete quiet run with duration 0: the finished
trace ends with restore then release (applying the theorem at N = 19), and
the step out of the finally entry at step 17 paints the previous frame
back. -/
theorem c2_cleanup_exactly_once_witness :
    cleanupOnce (run ⟨0, 0⟩ quietEnv 19 7).trace ∧
    (step ⟨0, 0⟩ quietEnv (run ⟨0, 0⟩ quietEnv 17 7)).trace =
      (run ⟨0, 0⟩ quietEnv 17 7).trace ++ [Event.restore] := by
  exact ⟨(c2_cleanup_exactly_once ⟨0, 0⟩ quietEnv 19 7 (initState 7)).1 (by decide),
         ((c2_cleanup_exactly_once ⟨0, 0⟩ quietEnv 19 7 (run ⟨0, 0⟩ quietEnv 17 7)).2
            (by decide) (by decide) (by decide)).2.1⟩

end Toast

namespace Toast

theorem envPhase_holder_other (env : Env) (s : RunState) (h : s.holder = Holder.other)
    (hrel : env.extRelease s.n = false) : (envPhase env s).holder = Holder.other := by
  simp [envPhase, h, hrel]

theorem envPhase_holder_free (env : Env) (s : RunState) (h : s.holder = Holder.free)
    (hacq : env.extAcquire s.n = false) : (envPhase env s).holder = Holder.free := by
  simp [envPhase, h, hacq]

/-- Environment of the C8 scenario: the host requests a lock yield at
step 11 (after the first paint), the external consumer grabs the freed
lock at step 16, and at the same step an exception hits the controller
while it is still inside the wait loop, before it could reacquire. -/
def yieldThenFaultEnv : Env :=
  { quietEnv with yieldSet := fun n => n == 11, extAcquire := fun n => n == 16,
                  fault := fun n => n == 16 }

/-- Claim C8: the terminal restoration guard only asks whether the lock is
held by anyone, not whether this controller holds it.  At the finally
entry with has_rendered true, the previous frame is redrawn whenever the
lock is held, even when the holder is another thread; it is skipped when
the lock is free.  The concrete run shows a full execution that releases
the lock for a yield, faults before reacquiring, and still redraws while
the other consumer holds the lock. -/
theorem c8_restore_guard_tests_any_holder (cfg : Cfg) (env : Env) (s : RunState) :
    (s.pc = PC.finallyStart → s.has_rendered = true → s.holder = Holder.other →
      env.extRelease s.n = false →
      (step cfg env s).trace = s.trace ++ [Event.restore] ∧
      (step cfg env s).display = s.prev.getD s.display) ∧
    (s.pc = PC.finallyStart → s.holder = Holder.free → env.extAcquire s.n = false →
      (step cfg env s).trace = s.trace) ∧
    ((run ⟨0, 3⟩ yieldThenFaultEnv 19 7).pc = PC.done ∧
      (run ⟨0, 3⟩ yieldThenFaultEnv 19 7).trace =
        [Event.acquire, Event.captureFrame, Event.paint, Event.setRendered,
         Event.release, Event.fault, Event.restore, Event.finalRelease] ∧
      (run ⟨0, 3⟩ yieldThenFaultEnv 19 7).display = 7) := by
  refine ⟨fun hpc hhr hold hrel => ?_, fun hpc hold hacq => ?_, by decide⟩
  · have hps : (envPhase env s).pc = PC.finallyStart := hpc
    have hhr2 : (envPhase env s).has_rendered = true := hhr
    have holdp : (envPhase env s).holder = Holder.other :=
      envPhase_holder_other env s hold hrel
    rw [step_at_finallyStart cfg env s hpc]
    rw [ctrlStep_finallyStart cfg env (envPhase env s) hps]
    rw [if_pos ⟨hhr2, by simp [holdp]⟩]
    exact ⟨rfl, rfl⟩
  · have hps : (envPhase env s).pc = PC.finallyStart := hpc
    have holdp : (envPhase env s).holder = Holder.free :=
      envPhase_holder_free env s hold hacq
    rw [step_at_finallyStart cfg env s hpc]
    rw [ctrlStep_finallyStart cfg env (envPhase env s) hps]
    rw [if_neg (by simp [holdp])]
    rfl

/-- Claim C8, witness: applying the guard characterisation at a concrete
finally-entry state whose lock holder is the other thread. -/
theorem c8_restore_guard_tests_any_holder_witness :
    (step ⟨0, 3⟩ quietEnv
        ⟨PC.finallyStart, 9, 17, true, false, true, some 7, Holder.other, 1, []⟩).trace =
      [] ++ [Event.restore] := by
  exact ((c8_restore_guard_tests_any_holder ⟨0, 3⟩ quietEnv
      ⟨PC.finallyStart, 9, 17, true, false, true, some 7, Holder.other, 1, []⟩).1
      rfl rfl rfl rfl).1

/-- Environment of the C9 scenario: an exception is raised at step 1,
while the controller sleeps through the activation delay, before the lock
was ever acquired. -/
def faultDuringSleepEnv : Env :=
  { quietEnv with fault := fun n => n == 1 }

/-- Claim C9: the finally clause invokes lock.release() exactly once on
every completed run, unconditionally; in particular a run that faults
during the activation-delay sleep never acquires the lock yet still
reaches the release statement while not holding the lock. -/
theorem c9_release_unconditional (cfg : Cfg) (env : Env) (N : Nat) (d0 : Nat) :
    ((run cfg env N d0).pc = PC.done → cleanupOnce (run cfg env N d0).trace) ∧
    ((run ⟨2, 3⟩ faultDuringSleepEnv 4 7).pc = PC.done ∧
      Event.acquire ∉ (run ⟨2, 3⟩ faultDuringSleepEnv 4 7).trace ∧
      (run ⟨2, 3⟩ faultDuringSleepEnv 4 7).trace = [Event.fault, Event.finalRelease] ∧
      (run ⟨2, 3⟩ faultDuringSleepEnv 3 7).pc = PC.finallyRelease ∧
      (run ⟨2, 3⟩ faultDuringSleepEnv 3 7).holder = Holder.free) := by
  constructor
  · intro hdone
    have h := inv2_run cfg env N d0
    unfold Inv2 at h
    simpa [hdone] using h
  · decide

/-- Claim C9, witness: the completed faulting run has its single final
release as the last trace entry. -/
theorem c9_release_unconditional_witness :
    cleanupOnce (run ⟨2, 3⟩ faultDuringSleepEnv 4 7).trace := by
  exact (c9_release_unconditional ⟨2, 3⟩ faultDuringSleepEnv 4 7).1 (by decide)

end Toast

namespace Toast

theorem ctrlStep_entry (cfg : Cfg) (env : Env) (s : RunState) (hpc : s.pc = PC.entry) :
    ctrlStep cfg env s =
      { s with has_rendered := false, prev := Option.none, pc := PC.sleepAct, n := s.n + 1 } := by
  simp only [ctrlStep, hpc]

theorem ctrlStep_sleepAct (cfg : Cfg) (env : Env) (s : RunState) (hpc : s.pc = PC.sleepAct) :
    ctrlStep cfg env s =
      { s with t := s.t + 10 * cfg.activation_delay, pc := PC.acquiring, n := s.n + 1 } := by
  simp only [ctrlStep, hpc]

theorem ctrlStep_acquiring (cfg : Cfg) (env : Env) (s : RunState) (hpc : s.pc = PC.acquiring) :
    ctrlStep cfg env s =
      if s.holder = Holder.free then
        { s with holder := Holder.self, pc := PC.loopCheck,
                 trace := s.trace ++ [Event.acquire], n := s.n + 1 }
      else { s with t := s.t + 1, n := s.n + 1 } := by
  simp only [ctrlStep, hpc]

theorem ctrlStep_loopCheck (cfg : Cfg) (env : Env) (s : RunState) (hpc : s.pc = PC.loopCheck) :
    ctrlStep cfg env s =
      if s.keep_running = true ∧ env.pred s.n = true then
        { s with pc := PC.inputCheck, n := s.n + 1 }
      else { s with pc := PC.finallyStart, n := s.n + 1 } := by
  simp only [ctrlStep, hpc]

theorem ctrlStep_inputCheck (cfg : Cfg) (env : Env) (s : RunState) (hpc : s.pc = PC.inputCheck) :
    ctrlStep cfg env s =
      if env.input s.n = true then
        { s with pc := PC.finallyStart, trace := s.trace ++ [Event.inputExit], n := s.n + 1 }
      else { s with pc := PC.yieldCheck, n := s.n + 1 } := by
  simp only [ctrlStep, hpc]

theorem ctrlStep_yieldCheck (cfg : Cfg) (env : Env) (s : RunState) (hpc : s.pc = PC.yieldCheck) :
    ctrlStep cfg env s =
      if s.toggle = true then
        { s with toggle := false, pc := PC.releaseYield, n := s.n + 1 }
      else { s with pc := PC.paintCheck, n := s.n + 1 } := by
  simp only [ctrlStep, hpc]

theorem ctrlStep_releaseYield (cfg : Cfg) (env : Env) (s : RunState)
    (hpc : s.pc = PC.releaseYield) :
    ctrlStep cfg env s =
      { s with holder := Holder.free, trace := s.trace ++ [Event.release],
               pc := PC.waitLocked, n := s.n + 1 } := by
  simp only [ctrlStep, hpc]

theorem ctrlStep_waitLocked (cfg : Cfg) (env : Env) (s : RunState) (hpc : s.pc = PC.waitLocked) :
    ctrlStep cfg env s =
      if s.holder = Holder.free then { s with t := s.t + 1, n := s.n + 1 }
      else
        { s with pc := PC.reacquiring, trace := s.trace ++ [Event.observedExtHeld],
                 n := s.n + 1 } := by
  simp only [ctrlStep, hpc]

theorem ctrlStep_reacquiring (cfg : Cfg) (env : Env) (s : RunState)
    (hpc : s.pc = PC.reacquiring) :
    ctrlStep cfg env s =
      if s.holder = Holder.free then
        { s with holder := Holder.self, pc := PC.paintCheck,
                 trace := s.trace ++ [Event.acquire], n := s.n + 1 }
      else { s with t := s.t + 1, n := s.n + 1 } := by
  simp only [ctrlStep, hpc]

theorem ctrlStep_paintCheck (cfg : Cfg) (env : Env) (s : RunState) (hpc : s.pc = PC.paintCheck) :
    ctrlStep cfg env s =
      if s.has_rendered = true then { s with pc := PC.durCheck, n := s.n + 1 }
      else { s with pc := PC.capture, n := s.n + 1 } := by
  simp only [ctrlStep, hpc]

theorem ctrlStep_capture (cfg : Cfg) (env : Env) (s : RunState) (hpc : s.pc = PC.capture) :
    ctrlStep cfg env s =
      { s with prev := some s.display, trace := s.trace ++ [Event.captureFrame],
               pc := PC.render, n := s.n + 1 } := by
  simp only [ctrlStep, hpc]

theorem ctrlStep_render (cfg : Cfg) (env : Env) (s : RunState) (hpc : s.pc = PC.render) :
    ctrlStep cfg env s =
      { s with display := toastImage, trace := s.trace ++ [Event.paint],
               pc := PC.setRend, n := s.n + 1 } := by
  simp only [ctrlStep, hpc]

theorem ctrlStep_setRend (cfg : Cfg) (env : Env) (s : RunState) (hpc : s.pc = PC.setRend) :
    ctrlStep cfg env s =
      { s with has_rendered := true, trace := s.trace ++ [Event.setRendered],
               pc := PC.durCheck, n := s.n + 1 } := by
  simp only [ctrlStep, hpc]

theorem ctrlStep_durCheck (cfg : Cfg) (env : Env) (s : RunState) (hpc : s.pc = PC.durCheck) :
    ctrlStep cfg env s =
      if D cfg < s.t ∧ s.has_rendered = true then
        { s with pc := PC.finallyStart, trace := s.trace ++ [Event.durationExit], n := s.n + 1 }
      else { s with pc := PC.sleepStep, n := s.n + 1 } := by
  simp only [ctrlStep, hpc]

theorem ctrlStep_sleepStep (cfg : Cfg) (env : Env) (s : RunState) (hpc : s.pc = PC.sleepStep) :
    ctrlStep cfg env s = { s with t := s.t + 1, pc := PC.loopCheck, n := s.n + 1 } := by
  simp only [ctrlStep, hpc]

theorem ctrlStep_finallyRelease (cfg : Cfg) (env : Env) (s : RunState)
    (hpc : s.pc = PC.finallyRelease) :
    ctrlStep cfg env s =
      { s with holder := Holder.free, trace := s.trace ++ [Event.finalRelease],
               pc := PC.done, n := s.n + 1 } := by
  simp only [ctrlStep, hpc]

theorem step_no_fault (cfg : Cfg) (env : Env) (s : RunState) (hd : ¬s.pc = PC.done)
    (hf : env.fault s.n = false) :
    step cfg env s = ctrlStep cfg env (envPhase env s) := by
  rw [step_not_done cfg env s hd]
  rw [if_neg (by simp [hf])]

end Toast

namespace Toast

/-- Claim C7: in each MONITORING iteration the checks run in the fixed
order of the source: (a) the while condition over keep_running (as just
written by other threads) and the continuation predicate, exiting to the
finally clause when false; (b) the pending-input check, exiting when an
input is pending; (c) the yield flag, entering the yield handshake and
clearing the flag when set; (d) the first-time capture, paint and the
setting of has_rendered; (e) the duration check, exiting exactly when the
deadline passed and the toast was rendered; (f) the bounded sleep back to
the top of the loop. -/
theorem c7_monitoring_check_order (cfg : Cfg) (env : Env) (s : RunState)
    (hf : env.fault s.n = false) :
    (s.pc = PC.loopCheck →
      ((s.keep_running && !(env.stopSet s.n)) = true ∧ env.pred s.n = true →
        (step cfg env s).pc = PC.inputCheck) ∧
      (¬((s.keep_running && !(env.stopSet s.n)) = true ∧ env.pred s.n = true) →
        (step cfg env s).pc = PC.finallyStart)) ∧
    (s.pc = PC.inputCheck →
      (env.input s.n = true → (step cfg env s).pc = PC.finallyStart ∧
        (step cfg env s).trace = s.trace ++ [Event.inputExit]) ∧
      (env.input s.n = false → (step cfg env s).pc = PC.yieldCheck)) ∧
    (s.pc = PC.yieldCheck →
      ((s.toggle || env.yieldSet s.n) = true → (step cfg env s).pc = PC.releaseYield ∧
        (step cfg env s).toggle = false) ∧
      ((s.toggle || env.yieldSet s.n) = false → (step cfg env s).pc = PC.paintCheck)) ∧
    (s.pc = PC.paintCheck →
      (s.has_rendered = false → (step cfg env s).pc = PC.capture) ∧
      (s.has_rendered = true → (step cfg env s).pc = PC.durCheck)) ∧
    (s.pc = PC.capture → (step cfg env s).pc = PC.render ∧
      (step cfg env s).prev = some s.display ∧
      (step cfg env s).trace = s.trace ++ [Event.captureFrame]) ∧
    (s.pc = PC.render → (step cfg env s).pc = PC.setRend ∧
      (step cfg env s).trace = s.trace ++ [Event.paint]) ∧
    (s.pc = PC.setRend → (step cfg env s).pc = PC.durCheck ∧
      (step cfg env s).has_rendered = true ∧
      (step cfg env s).trace = s.trace ++ [Event.setRendered]) ∧
    (s.pc = PC.durCheck →
      (D cfg < s.t ∧ s.has_rendered = true → (step cfg env s).pc = PC.finallyStart ∧
        (step cfg env s).trace = s.trace ++ [Event.durationExit]) ∧
      (¬(D cfg < s.t ∧ s.has_rendered = true) → (step cfg env s).pc = PC.sleepStep)) ∧
    (s.pc = PC.sleepStep → (step cfg env s).pc = PC.loopCheck ∧
      (step cfg env s).t = s.t + 1) := by
  refine ⟨fun hpc => ?_, fun hpc => ?_, fun hpc => ?_, fun hpc => ?_, fun hpc => ?_,
         fun hpc => ?_, fun hpc => ?_, fun hpc => ?_, fun hpc => ?_⟩ <;>
    rw [step_no_fault cfg env s (by simp [hpc]) hf]
  · rw [ctrlStep_loopCheck cfg env (envPhase env s) hpc]
    constructor
    · intro hc
      have hc2 : (envPhase env s).keep_running = true ∧ env.pred (envPhase env s).n = true := hc
      rw [if_pos hc2]
    · intro hc
      have hc2 : ¬((envPhase env s).keep_running = true ∧
          env.pred (envPhase env s).n = true) := hc
      rw [if_neg hc2]
  · rw [ctrlStep_inputCheck cfg env (envPhase env s) hpc]
    constructor
    · intro hc
      have hc2 : env.input (envPhase env s).n = true := hc
      rw [if_pos hc2]
      exact ⟨rfl, rfl⟩
    · intro hc
      have hx : env.input (envPhase env s).n = false := hc
      rw [if_neg (by simp [hx])]
  · rw [ctrlStep_yieldCheck cfg env (envPhase env s) hpc]
    constructor
    · intro hc
      have hc2 : (envPhase env s).toggle = true := hc
      rw [if_pos hc2]
      exact ⟨rfl, rfl⟩
    · intro hc
      have hx : (envPhase env s).toggle = false := hc
      rw [if_neg (by simp [hx])]
  · rw [ctrlStep_paintCheck cfg env (envPhase env s) hpc]
    constructor
    · intro hc
      have hx : (envPhase env s).has_rendered = false := hc
      rw [if_neg (by simp [hx])]
    · intro hc
      have hc2 : (envPhase env s).has_rendered = true := hc
      rw [if_pos hc2]
  · rw [ctrlStep_capture cfg env (envPhase env s) hpc]
    exact ⟨rfl, rfl, rfl⟩
  · rw [ctrlStep_render cfg env (envPhase env s) hpc]
    exact ⟨rfl, rfl⟩
  · rw [ctrlStep_setRend cfg env (envPhase env s) hpc]
    exact ⟨rfl, rfl, rfl⟩
  · rw [ctrlStep_durCheck cfg env (envPhase env s) hpc]
    constructor
    · intro hc
      have hc2 : D cfg < (envPhase env s).t ∧ (envPhase env s).has_rendered = true := hc
      rw [if_pos hc2]
      exact ⟨rfl, rfl⟩
    · intro hc
      have hc2 : ¬(D cfg < (envPhase env s).t ∧ (envPhase env s).has_rendered = true) := hc
      rw [if_neg hc2]
  · rw [ctrlStep_sleepStep cfg env (envPhase env s) hpc]
    exact ⟨rfl, rfl⟩

/-- Claim C7, witness: the order theorem applied along a concrete quiet
iteration: the while condition passes into the input check, the clear
input check passes on to the yield check, and the duration check sends a
rendered toast past the deadline to the finally clause. -/
theorem c7_monitoring_check_order_witness :
    (step ⟨0, 0⟩ quietEnv (run ⟨0, 0⟩ quietEnv 12 7)).pc = PC.inputCheck ∧
    (step ⟨0, 0⟩ quietEnv (run ⟨0, 0⟩ quietEnv 13 7)).pc = PC.yieldCheck ∧
    (step ⟨0, 0⟩ quietEnv (run ⟨0, 0⟩ quietEnv 16 7)).pc = PC.finallyStart := by
  refine ⟨?_, ?_, ?_⟩
  · exact ((c7_monitoring_check_order ⟨0, 0⟩ quietEnv (run ⟨0, 0⟩ quietEnv 12 7)
      (by decide)).1 (by decide)).1 (by decide)
  · exact ((c7_monitoring_check_order ⟨0, 0⟩ quietEnv (run ⟨0, 0⟩ quietEnv 13 7)
      (by decide)).2.1 (by decide)).2 (by decide)
  · exact (((c7_monitoring_check_order ⟨0, 0⟩ quietEnv (run ⟨0, 0⟩ quietEnv 16 7)
      (by decide)).2.2.2.2.2.2.2.1 (by decide)).1 (by decide)).1

end Toast

namespace Toast

theorem envPhase_self_quiet (env : Env) (s : RunState) (hs : env.stopSet s.n = false)
    (hy : env.yieldSet s.n = false) (hh : s.holder = Holder.self) : envPhase env s = s := by
  cases s
  simp_all [envPhase]

theorem envPhase_free_quiet (env : Env) (s : RunState) (hs : env.stopSet s.n = false)
    (hy : env.yieldSet s.n = false) (hh : s.holder = Holder.free)
    (ha : env.extAcquire s.n = false) : envPhase env s = s := by
  cases s
  simp_all [envPhase]

theorem envPhase_other_quiet (env : Env) (s : RunState) (hs : env.stopSet s.n = false)
    (hy : env.yieldSet s.n = false) (hh : s.holder = Holder.other)
    (hr : env.extRelease s.n = false) : envPhase env s = s := by
  cases s
  simp_all [envPhase]

theorem envPhase_free_grab (env : Env) (s : RunState) (hs : env.stopSet s.n = false)
    (hy : env.yieldSet s.n = false) (hh : s.holder = Holder.free)
    (ha : env.extAcquire s.n = true) :
    envPhase env s = { s with holder := Holder.other } := by
  cases s
  simp_all [envPhase]

theorem envPhase_other_release (env : Env) (s : RunState) (hs : env.stopSet s.n = false)
    (hy : env.yieldSet s.n = false) (hh : s.holder = Holder.other)
    (hr : env.extRelease s.n = true) (ha : env.extAcquire s.n = false) :
    envPhase env s = { s with holder := Holder.free } := by
  cases s
  simp_all [envPhase]

/-- During the yield wait loop: while no other consumer has grabbed the
freed lock the controller keeps sleeping; the step at which the external
acquire happens is observed and moves the controller to the blocking
reacquire. -/
theorem wait_phase (cfg : Cfg) (env : Env) (j : Nat) :
    ∀ s : RunState, s.pc = PC.waitLocked → s.holder = Holder.free →
    (∀ i, i ≤ j → env.fault (s.n + i) = false ∧ env.stopSet (s.n + i) = false ∧
      env.yieldSet (s.n + i) = false) →
    (∀ i, i < j → env.extAcquire (s.n + i) = false) →
    env.extAcquire (s.n + j) = true →
    stepN cfg env (j + 1) s =
      { s with pc := PC.reacquiring, holder := Holder.other, t := s.t + j,
               n := s.n + (j + 1), trace := s.trace ++ [Event.observedExtHeld] } := by
  induction j with
  | zero =>
      intro s hpc hfree hq hwa hwa2
      have hf : env.fault s.n = false := (hq 0 (by omega)).1
      have hs : env.stopSet s.n = false := (hq 0 (by omega)).2.1
      have hy : env.yieldSet s.n = false := (hq 0 (by omega)).2.2
      show step cfg env s = _
      rw [step_no_fault cfg env s (by simp [hpc]) hf]
      rw [envPhase_free_grab env s hs hy hfree hwa2]
      rw [ctrlStep_waitLocked cfg env _ (by simp [hpc])]
      rw [if_neg (by simp)]
      simp
  | succ j ih =>
      intro s hpc hfree hq hwa hwa2
      have hf : env.fault s.n = false := (hq 0 (by omega)).1
      have hs : env.stopSet s.n = false := (hq 0 (by omega)).2.1
      have hy : env.yieldSet s.n = false := (hq 0 (by omega)).2.2
      have ha : env.extAcquire s.n = false := hwa 0 (by omega)
      have hstep : step cfg env s = { s with t := s.t + 1, n := s.n + 1 } := by
        rw [step_no_fault cfg env s (by simp [hpc]) hf]
        rw [envPhase_free_quiet env s hs hy hfree ha]
        rw [ctrlStep_waitLocked cfg env s hpc]
        rw [if_pos hfree]
      have hq2 : ∀ i, i ≤ j → env.fault (s.n + 1 + i) = false ∧
          env.stopSet (s.n + 1 + i) = false ∧ env.yieldSet (s.n + 1 + i) = false := by
        intro i hi
        have hidx : s.n + 1 + i = s.n + (i + 1) := by omega
        rw [hidx]
        exact hq (i + 1) (by omega)
      have hwa1 : ∀ i, i < j → env.extAcquire (s.n + 1 + i) = false := by
        intro i hi
        have hidx : s.n + 1 + i = s.n + (i + 1) := by omega
        rw [hidx]
        exact hwa (i + 1) (by omega)
      have hwa21 : env.extAcquire (s.n + 1 + j) = true := by
        have hidx : s.n + 1 + j = s.n + (j + 1) := by omega
        rw [hidx]
        exact hwa2
      have hrec := ih { s with t := s.t + 1, n := s.n + 1 } hpc hfree hq2 hwa1 hwa21
      show stepN cfg env (j + 1) (step cfg env s) = _
      rw [hstep, hrec]
      simp
      try omega
  
/-- During the blocking reacquire after a yield: while the external
consumer holds the lock the controller blocks; once the external holder
releases (and nobody re-grabs first), the controller reacquires and
returns to the monitoring body. -/
theorem reacq_phase (cfg : Cfg) (env : Env) (k : Nat) :
    ∀ s : RunState, s.pc = PC.reacquiring → s.holder = Holder.other →
    (∀ i, i ≤ k → env.fault (s.n + i) = false ∧ env.stopSet (s.n + i) = false ∧
      env.yieldSet (s.n + i) = false) →
    (∀ i, i < k → env.extRelease (s.n + i) = false) →
    env.extRelease (s.n + k) = true →
    env.extAcquire (s.n + k) = false →
    stepN cfg env (k + 1) s =
      { s with pc := PC.paintCheck, holder := Holder.self, t := s.t + k,
               n := s.n + (k + 1), trace := s.trace ++ [Event.acquire] } := by
  induction k with
  | zero =>
      intro s hpc hother hq hrr hrr2 hra
      have hf : env.fault s.n = false := (hq 0 (by omega)).1
      have hs : env.stopSet s.n = false := (hq 0 (by omega)).2.1
      have hy : env.yieldSet s.n = false := (hq 0 (by omega)).2.2
      show step cfg env s = _
      rw [step_no_fault cfg env s (by simp [hpc]) hf]
      rw [envPhase_other_release env s hs hy hother hrr2 hra]
      rw [ctrlStep_reacquiring cfg env _ (by simp [hpc])]
      rw [if_pos (by simp)]
      simp
  | succ k ih =>
      intro s hpc hother hq hrr hrr2 hra
      have hf : env.fault s.n = false := (hq 0 (by omega)).1
      have hs : env.stopSet s.n = false := (hq 0 (by omega)).2.1
      have hy : env.yieldSet s.n = false := (hq 0 (by omega)).2.2
      have hr0 : env.extRelease s.n = false := hrr 0 (by omega)
      have hstep : step cfg env s = { s with t := s.t + 1, n := s.n + 1 } := by
        rw [step_no_fault cfg env s (by simp [hpc]) hf]
        rw [envPhase_other_quiet env s hs hy hother hr0]
        rw [ctrlStep_reacquiring cfg env s hpc]
        rw [if_neg (by simp [hother])]
      have hq2 : ∀ i, i ≤ k → env.fault (s.n + 1 + i) = false ∧
          env.stopSet (s.n + 1 + i) = false ∧ env.yieldSet (s.n + 1 + i) = false := by
        intro i hi
        have hidx : s.n + 1 + i = s.n + (i + 1) := by omega
        rw [hidx]
        exact hq (i + 1) (by omega)
      have hrr1 : ∀ i, i < k → env.extRelease (s.n + 1 + i) = false := by
        intro i hi
        have hidx : s.n + 1 + i = s.n + (i + 1) := by omega
        rw [hidx]
        exact hrr (i + 1) (by omega)
      have hrr21 : env.extRelease (s.n + 1 + k) = true := by
        have hidx : s.n + 1 + k = s.n + (k + 1) := by omega
        rw [hidx]
        exact hrr2
      have hra1 : env.extAcquire (s.n + 1 + k) = false := by
        have hidx : s.n + 1 + k = s.n + (k + 1) := by omega
        rw [hidx]
        exact hra
      have hrec := ih { s with t := s.t + 1, n := s.n + 1 } hpc hother hq2 hrr1 hrr21 hra1
      show stepN cfg env (k + 1) (step cfg env s) = _
      rw [hstep, hrec]
      simp
      try omega

end Toast

namespace Toast

/-- Claim C4: if the yield flag is set while the controller sits at the
top of a MONITORING iteration (holding the lock, not stopped, predicate
true, no pending input), then within a bounded number of steps, j poll
intervals until some other consumer grabs the freed lock and k until that
holder releases it again, the controller clears the flag, releases the
lock, observes the external acquisition before reacquiring, performs the
blocking reacquire and is back in the MONITORING body holding the lock:
the trace gains exactly release, observed-external-hold, acquire, in that
order. -/
theorem c4_yield_handshake (cfg : Cfg) (env : Env) (s : RunState) (j k : Nat)
    (hpc : s.pc = PC.loopCheck) (hkr : s.keep_running = true) (htg : s.toggle = true)
    (hold : s.holder = Holder.self)
    (hq : ∀ i, i ≤ 5 + j + k → env.fault (s.n + i) = false ∧
      env.stopSet (s.n + i) = false ∧ env.yieldSet (s.n + i) = false)
    (hpred : env.pred s.n = true) (hinp : env.input (s.n + 1) = false)
    (hwa : ∀ i, i < j → env.extAcquire (s.n + 4 + i) = false)
    (hwa2 : env.extAcquire (s.n + 4 + j) = true)
    (hrr : ∀ i, i < k → env.extRelease (s.n + 5 + j + i) = false)
    (hrr2 : env.extRelease (s.n + 5 + j + k) = true)
    (hra : env.extAcquire (s.n + 5 + j + k) = false) :
    stepN cfg env (6 + j + k) s =
      { s with
        pc := PC.paintCheck, toggle := false, holder := Holder.self,
        t := s.t + j + k, n := s.n + 6 + j + k,
        trace := s.trace ++ [Event.release, Event.observedExtHeld, Event.acquire] } := by
  have e0 : step cfg env s = { s with pc := PC.inputCheck, n := s.n + 1 } := by
    rw [step_no_fault cfg env s (by simp [hpc]) (hq 0 (by omega)).1]
    rw [envPhase_self_quiet env s (hq 0 (by omega)).2.1 (hq 0 (by omega)).2.2 hold]
    rw [ctrlStep_loopCheck cfg env s hpc]
    rw [if_pos ⟨hkr, hpred⟩]
  have e1 : step cfg env { s with pc := PC.inputCheck, n := s.n + 1 } =
      { s with pc := PC.yieldCheck, n := s.n + 1 + 1 } := by
    rw [step_no_fault cfg env _ (by simp) (hq 1 (by omega)).1]
    rw [envPhase_self_quiet env { s with pc := PC.inputCheck, n := s.n + 1 }
      (hq 1 (by omega)).2.1 (hq 1 (by omega)).2.2 hold]
    rw [ctrlStep_inputCheck cfg env _ rfl]
    rw [if_neg (by simp [hinp])]
  have e2 : step cfg env { s with pc := PC.yieldCheck, n := s.n + 1 + 1 } =
      { s with toggle := false, pc := PC.releaseYield, n := s.n + 1 + 1 + 1 } := by
    rw [step_no_fault cfg env _ (by simp) (hq 2 (by omega)).1]
    rw [envPhase_self_quiet env { s with pc := PC.yieldCheck, n := s.n + 1 + 1 }
      (hq 2 (by omega)).2.1 (hq 2 (by omega)).2.2 hold]
    rw [ctrlStep_yieldCheck cfg env _ rfl]
    rw [if_pos htg]
  have e3 : step cfg env
        { s with toggle := false, pc := PC.releaseYield, n := s.n + 1 + 1 + 1 } =
      { s with
        toggle := false, holder := Holder.free, pc := PC.waitLocked,
        trace := s.trace ++ [Event.release], n := s.n + 1 + 1 + 1 + 1 } := by
    rw [step_no_fault cfg env _ (by simp) (hq 3 (by omega)).1]
    rw [envPhase_self_quiet env
      { s with toggle := false, pc := PC.releaseYield, n := s.n + 1 + 1 + 1 }
      (hq 3 (by omega)).2.1 (hq 3 (by omega)).2.2 hold]
    rw [ctrlStep_releaseYield cfg env _ rfl]
  have h4 : stepN cfg env 4 s =
      { s with
        toggle := false, holder := Holder.free, pc := PC.waitLocked,
        trace := s.trace ++ [Event.release], n := s.n + 1 + 1 + 1 + 1 } := by
    show stepN cfg env 3 (step cfg env s) = _
    rw [e0]
    show stepN cfg env 2 (step cfg env { s with pc := PC.inputCheck, n := s.n + 1 }) = _
    rw [e1]
    show stepN cfg env 1
      (step cfg env { s with pc := PC.yieldCheck, n := s.n + 1 + 1 }) = _
    rw [e2]
    show stepN cfg env 0 (step cfg env
      { s with toggle := false, pc := PC.releaseYield, n := s.n + 1 + 1 + 1 }) = _
    rw [e3]
    rfl
  have hq4 : ∀ i, i ≤ j → env.fault (s.n + 4 + i) = false ∧
      env.stopSet (s.n + 4 + i) = false ∧ env.yieldSet (s.n + 4 + i) = false := by
    intro i hi
    have hidx : s.n + 4 + i = s.n + (4 + i) := by omega
    rw [hidx]
    exact hq (4 + i) (by omega)
  have hw := wait_phase cfg env j
    { s with
      toggle := false, holder := Holder.free, pc := PC.waitLocked,
      trace := s.trace ++ [Event.release], n := s.n + 1 + 1 + 1 + 1 }
    rfl rfl hq4 hwa hwa2
  have hq5 : ∀ i, i ≤ k → env.fault (s.n + 4 + (j + 1) + i) = false ∧
      env.stopSet (s.n + 4 + (j + 1) + i) = false ∧
      env.yieldSet (s.n + 4 + (j + 1) + i) = false := by
    intro i hi
    have hidx : s.n + 4 + (j + 1) + i = s.n + (5 + j + i) := by omega
    rw [hidx]
    exact hq (5 + j + i) (by omega)
  have hrr5 : ∀ i, i < k → env.extRelease (s.n + 4 + (j + 1) + i) = false := by
    intro i hi
    have hidx : s.n + 4 + (j + 1) + i = s.n + 5 + j + i := by omega
    rw [hidx]
    exact hrr i hi
  have hrr25 : env.extRelease (s.n + 4 + (j + 1) + k) = true := by
    have hidx : s.n + 4 + (j + 1) + k = s.n + 5 + j + k := by omega
    rw [hidx]
    exact hrr2
  have hra5 : env.extAcquire (s.n + 4 + (j + 1) + k) = false := by
    have hidx : s.n + 4 + (j + 1) + k = s.n + 5 + j + k := by omega
    rw [hidx]
    exact hra
  have hr := reacq_phase cfg env k
    { s with
      toggle := false, holder := Holder.other, pc := PC.reacquiring,
      t := s.t + j, trace := (s.trace ++ [Event.release]) ++ [Event.observedExtHeld],
      n := s.n + 4 + (j + 1) }
    rfl rfl hq5 hrr5 hrr25 hra5
  rw [show 6 + j + k = 4 + ((j + 1) + (k + 1)) from by omega]
  rw [stepN_add cfg env 4 ((j + 1) + (k + 1)) s]
  rw [stepN_add cfg env (j + 1) (k + 1) (stepN cfg env 4 s)]
  rw [h4, hw]
  show stepN cfg env (k + 1)
    { s with
      toggle := false, holder := Holder.other, pc := PC.reacquiring,
      t := s.t + j, trace := (s.trace ++ [Event.release]) ++ [Event.observedExtHeld],
      n := s.n + 4 + (j + 1) } = _
  rw [hr]
  simp [List.append_assoc]
  omega

end Toast

namespace Toast

/-- Environment of the C4 witness: after the controller frees the lock,
another consumer grabs it at step 24 and releases it at step 25; nothing
else happens. -/
def yieldHandoffEnv : Env :=
  { quietEnv with extAcquire := fun n => n == 24, extRelease := fun n => n == 25 }

/-- Claim C4, witness: the handshake theorem applied at a concrete
monitored state with the yield flag set, with the external consumer
taking the lock immediately and holding it for one step. -/
theorem c4_yield_handshake_witness :
    stepN ⟨0, 3⟩ yieldHandoffEnv 6
        ⟨PC.loopCheck, 5, 20, true, true, true, some 7, Holder.self, 1, []⟩ =
      ⟨PC.paintCheck, 5, 26, true, false, true, some 7, Holder.self, 1,
       [Event.release, Event.observedExtHeld, Event.acquire]⟩ := by
  exact c4_yield_handshake ⟨0, 3⟩ yieldHandoffEnv
    ⟨PC.loopCheck, 5, 20, true, true, true, some 7, Holder.self, 1, []⟩ 0 0
    rfl rfl rfl rfl (fun i _ => ⟨rfl, rfl, rfl⟩) rfl rfl
    (fun i hi => absurd hi (Nat.not_lt_zero i)) rfl
    (fun i hi => absurd hi (Nat.not_lt_zero i)) rfl rfl

end Toast

namespace Toast

theorem step_quiet (cfg : Cfg) (s : RunState) (hd : ¬s.pc = PC.done) :
    step cfg quietEnv s = ctrlStep cfg quietEnv s := by
  rw [step_not_done cfg quietEnv s hd]
  rw [if_neg (by simp [quietEnv])]
  rw [envPhase_quiet]

/-- Canonical shape of the controller state at the top of a MONITORING
iteration after the first paint, in a quiet environment. -/
def loopSt (t n d0 : Nat) (tr : List Event) : RunState :=
  ⟨PC.loopCheck, t, n, true, false, true, some d0, Holder.self, toastImage, tr⟩

theorem loop_to_dur (cfg : Cfg) (d0 t n : Nat) (tr : List Event) :
    stepN cfg quietEnv 4 (loopSt t n d0 tr) =
      ⟨PC.durCheck, t, n + 1 + 1 + 1 + 1, true, false, true, some d0, Holder.self,
       toastImage, tr⟩ := by
  have e0 : step cfg quietEnv (loopSt t n d0 tr) =
      ⟨PC.inputCheck, t, n + 1, true, false, true, some d0, Holder.self, toastImage, tr⟩ := by
    rw [step_quiet cfg _ (by simp [loopSt])]
    rw [ctrlStep_loopCheck cfg quietEnv _ rfl]
    rw [if_pos ⟨rfl, rfl⟩]
    rfl
  have e1 : step cfg quietEnv
      ⟨PC.inputCheck, t, n + 1, true, false, true, some d0, Holder.self, toastImage, tr⟩ =
      ⟨PC.yieldCheck, t, n + 1 + 1, true, false, true, some d0, Holder.self, toastImage, tr⟩ := by
    rw [step_quiet cfg _ (by simp)]
    rw [ctrlStep_inputCheck cfg quietEnv _ rfl]
    rw [if_neg (by simp [quietEnv])]
  have e2 : step cfg quietEnv
      ⟨PC.yieldCheck, t, n + 1 + 1, true, false, true, some d0, Holder.self, toastImage, tr⟩ =
      ⟨PC.paintCheck, t, n + 1 + 1 + 1, true, false, true, some d0, Holder.self,
       toastImage, tr⟩ := by
    rw [step_quiet cfg _ (by simp)]
    rw [ctrlStep_yieldCheck cfg quietEnv _ rfl]
    rw [if_neg (by simp)]
  have e3 : step cfg quietEnv
      ⟨PC.paintCheck, t, n + 1 + 1 + 1, true, false, true, some d0, Holder.self,
       toastImage, tr⟩ =
      ⟨PC.durCheck, t, n + 1 + 1 + 1 + 1, true, false, true, some d0, Holder.self,
       toastImage, tr⟩ := by
    rw [step_quiet cfg _ (by simp)]
    rw [ctrlStep_paintCheck cfg quietEnv _ rfl]
    rw [if_pos rfl]
  show stepN cfg quietEnv 3 (step cfg quietEnv (loopSt t n d0 tr)) = _
  rw [e0]
  show stepN cfg quietEnv 2 (step cfg quietEnv
    ⟨PC.inputCheck, t, n + 1, true, false, true, some d0, Holder.self, toastImage, tr⟩) = _
  rw [e1]
  show stepN cfg quietEnv 1 (step cfg quietEnv
    ⟨PC.yieldCheck, t, n + 1 + 1, true, false, true, some d0, Holder.self, toastImage, tr⟩) = _
  rw [e2]
  show stepN cfg quietEnv 0 (step cfg quietEnv
    ⟨PC.paintCheck, t, n + 1 + 1 + 1, true, false, true, some d0, Holder.self,
     toastImage, tr⟩) = _
  rw [e3]
  rfl

theorem dur_exit (cfg : Cfg) (d0 t n : Nat) (tr : List Event) (hD : D cfg < t) :
    stepN cfg quietEnv 3
      ⟨PC.durCheck, t, n, true, false, true, some d0, Holder.self, toastImage, tr⟩ =
      ⟨PC.done, t, n + 1 + 1 + 1, true, false, true, some d0, Holder.free, d0,
       ((tr ++ [Event.durationExit]) ++ [Event.restore]) ++ [Event.finalRelease]⟩ := by
  have e0 : step cfg quietEnv
      ⟨PC.durCheck, t, n, true, false, true, some d0, Holder.self, toastImage, tr⟩ =
      ⟨PC.finallyStart, t, n + 1, true, false, true, some d0, Holder.self, toastImage,
       tr ++ [Event.durationExit]⟩ := by
    rw [step_quiet cfg _ (by simp)]
    rw [ctrlStep_durCheck cfg quietEnv _ rfl]
    rw [if_pos ⟨hD, rfl⟩]
  have e1 : step cfg quietEnv
      ⟨PC.finallyStart, t, n + 1, true, false, true, some d0, Holder.self, toastImage,
       tr ++ [Event.durationExit]⟩ =
      ⟨PC.finallyRelease, t, n + 1 + 1, true, false, true, some d0, Holder.self, d0,
       (tr ++ [Event.durationExit]) ++ [Event.restore]⟩ := by
    rw [step_quiet cfg _ (by simp)]
    rw [ctrlStep_finallyStart cfg quietEnv _ rfl]
    rw [if_pos ⟨rfl, by simp⟩]
    rfl
  have e2 : step cfg quietEnv
      ⟨PC.finallyRelease, t, n + 1 + 1, true, false, true, some d0, Holder.self, d0,
       (tr ++ [Event.durationExit]) ++ [Event.restore]⟩ =
      ⟨PC.done, t, n + 1 + 1 + 1, true, false, true, some d0, Holder.free, d0,
       ((tr ++ [Event.durationExit]) ++ [Event.restore]) ++ [Event.finalRelease]⟩ := by
    rw [step_quiet cfg _ (by simp)]
    rw [ctrlStep_finallyRelease cfg quietEnv _ rfl]
  show stepN cfg quietEnv 2 (step cfg quietEnv
    ⟨PC.durCheck, t, n, true, false, true, some d0, Holder.self, toastImage, tr⟩) = _
  rw [e0]
  show stepN cfg quietEnv 1 (step cfg quietEnv
    ⟨PC.finallyStart, t, n + 1, true, false, true, some d0, Holder.self, toastImage,
     tr ++ [Event.durationExit]⟩) = _
  rw [e1]
  show stepN cfg quietEnv 0 (step cfg quietEnv
    ⟨PC.finallyRelease, t, n + 1 + 1, true, false, true, some d0, Holder.self, d0,
     (tr ++ [Event.durationExit]) ++ [Event.restore]⟩) = _
  rw [e2]
  rfl

theorem dur_next (cfg : Cfg) (d0 t n : Nat) (tr : List Event) (hD : ¬(D cfg < t)) :
    stepN cfg quietEnv 2
      ⟨PC.durCheck, t, n, true, false, true, some d0, Holder.self, toastImage, tr⟩ =
      loopSt (t + 1) (n + 1 + 1) d0 tr := by
  have e0 : step cfg quietEnv
      ⟨PC.durCheck, t, n, true, false, true, some d0, Holder.self, toastImage, tr⟩ =
      ⟨PC.sleepStep, t, n + 1, true, false, true, some d0, Holder.self, toastImage, tr⟩ := by
    rw [step_quiet cfg _ (by simp)]
    rw [ctrlStep_durCheck cfg quietEnv _ rfl]
    rw [if_neg (by rintro ⟨h1, -⟩; exact hD h1)]
  have e1 : step cfg quietEnv
      ⟨PC.sleepStep, t, n + 1, true, false, true, some d0, Holder.self, toastImage, tr⟩ =
      loopSt (t + 1) (n + 1 + 1) d0 tr := by
    rw [step_quiet cfg _ (by simp)]
    rw [ctrlStep_sleepStep cfg quietEnv _ rfl]
    rfl
  show stepN cfg quietEnv 1 (step cfg quietEnv
    ⟨PC.durCheck, t, n, true, false, true, some d0, Holder.self, toastImage, tr⟩) = _
  rw [e0]
  show stepN cfg quietEnv 0 (step cfg quietEnv
    ⟨PC.sleepStep, t, n + 1, true, false, true, some d0, Holder.self, toastImage, tr⟩) = _
  rw [e1]
  rfl

/-- In a quiet environment a rendered controller at the top of the loop
terminates exactly at the first tick past the deadline, restoring the
captured frame and releasing the lock, ending with the duration exit,
restore, final release events. -/
theorem quiet_loop_done (cfg : Cfg) (d0 : Nat) :
    ∀ m t n tr, t + m = D cfg + 1 →
    ∃ N, (stepN cfg quietEnv N (loopSt t n d0 tr)).pc = PC.done ∧
      (stepN cfg quietEnv N (loopSt t n d0 tr)).has_rendered = true ∧
      (stepN cfg quietEnv N (loopSt t n d0 tr)).t = D cfg + 1 ∧
      (stepN cfg quietEnv N (loopSt t n d0 tr)).display = d0 ∧
      (stepN cfg quietEnv N (loopSt t n d0 tr)).trace =
        tr ++ [Event.durationExit, Event.restore, Event.finalRelease] := by
  intro m
  induction m with
  | zero =>
      intro t n tr ht
      have hD : D cfg < t := by omega
      refine ⟨7, ?_⟩
      have hc : stepN cfg quietEnv 7 (loopSt t n d0 tr) =
          stepN cfg quietEnv 3 (stepN cfg quietEnv 4 (loopSt t n d0 tr)) := by
        rw [← stepN_add cfg quietEnv 4 3]
      rw [hc, loop_to_dur, dur_exit cfg d0 t _ tr hD]
      refine ⟨rfl, rfl, show t = D cfg + 1 by omega, rfl, by simp⟩
  | succ m ih =>
      intro t n tr ht
      have hD : ¬(D cfg < t) := by omega
      obtain ⟨N, hN⟩ := ih (t + 1) (n + 1 + 1 + 1 + 1 + 1 + 1) tr (by omega)
      refine ⟨4 + (2 + N), ?_⟩
      rw [stepN_add cfg quietEnv 4 (2 + N), loop_to_dur,
          stepN_add cfg quietEnv 2 N, dur_next cfg d0 t _ tr hD]
      exact hN

/-- The first twelve steps of a quiet run: entry, uncancellable
activation sleep, lock acquisition, and the first MONITORING iteration
which captures the frame, paints the toast, marks it rendered, and
sleeps once. -/
theorem quiet_first12 (cfg : Cfg) (d0 : Nat) :
    stepN cfg quietEnv 12 (initState d0) =
      loopSt (0 + 10 * cfg.activation_delay + 1) 12 d0
        [Event.acquire, Event.captureFrame, Event.paint, Event.setRendered] := by
  have e0 : step cfg quietEnv (initState d0) =
      ⟨PC.sleepAct, 0, 1, true, false, false, Option.none, Holder.free, d0, []⟩ := by
    rw [step_quiet cfg _ (by simp [initState])]
    rw [ctrlStep_entry cfg quietEnv _ rfl]
    rfl
  have e1 : step cfg quietEnv
      ⟨PC.sleepAct, 0, 1, true, false, false, Option.none, Holder.free, d0, []⟩ =
      ⟨PC.acquiring, 0 + 10 * cfg.activation_delay, 2, true, false, false, Option.none,
       Holder.free, d0, []⟩ := by
    rw [step_quiet cfg _ (by simp)]
    rw [ctrlStep_sleepAct cfg quietEnv _ rfl]
  have e2 : step cfg quietEnv
      ⟨PC.acquiring, 0 + 10 * cfg.activation_delay, 2, true, false, false, Option.none,
       Holder.free, d0, []⟩ =
      ⟨PC.loopCheck, 0 + 10 * cfg.activation_delay, 3, true, false, false, Option.none,
       Holder.self, d0, [Event.acquire]⟩ := by
    rw [step_quiet cfg _ (by simp)]
    rw [ctrlStep_acquiring cfg quietEnv _ rfl]
    rw [if_pos rfl]
    rfl
  have e3 : step cfg quietEnv
      ⟨PC.loopCheck, 0 + 10 * cfg.activation_delay, 3, true, false, false, Option.none,
       Holder.self, d0, [Event.acquire]⟩ =
      ⟨PC.inputCheck, 0 + 10 * cfg.activation_delay, 4, true, false, false, Option.none,
       Holder.self, d0, [Event.acquire]⟩ := by
    rw [step_quiet cfg _ (by simp)]
    rw [ctrlStep_loopCheck cfg quietEnv _ rfl]
    rw [if_pos ⟨rfl, rfl⟩]
  have e4 : step cfg quietEnv
      ⟨PC.inputCheck, 0 + 10 * cfg.activation_delay, 4, true, false, false, Option.none,
       Holder.self, d0, [Event.acquire]⟩ =
      ⟨PC.yieldCheck, 0 + 10 * cfg.activation_delay, 5, true, false, false, Option.none,
       Holder.self, d0, [Event.acquire]⟩ := by
    rw [step_quiet cfg _ (by simp)]
    rw [ctrlStep_inputCheck cfg quietEnv _ rfl]
    rw [if_neg (by simp [quietEnv])]
  have e5 : step cfg quietEnv
      ⟨PC.yieldCheck, 0 + 10 * cfg.activation_delay, 5, true, false, false, Option.none,
       Holder.self, d0, [Event.acquire]⟩ =
      ⟨PC.paintCheck, 0 + 10 * cfg.activation_delay, 6, true, false, false, Option.none,
       Holder.self, d0, [Event.acquire]⟩ := by
    rw [step_quiet cfg _ (by simp)]
    rw [ctrlStep_yieldCheck cfg quietEnv _ rfl]
    rw [if_neg (by simp)]
  have e6 : step cfg quietEnv
      ⟨PC.paintCheck, 0 + 10 * cfg.activation_delay, 6, true, false, false, Option.none,
       Holder.self, d0, [Event.acquire]⟩ =
      ⟨PC.capture, 0 + 10 * cfg.activation_delay, 7, true, false, false, Option.none,
       Holder.self, d0, [Event.acquire]⟩ := by
    rw [step_quiet cfg _ (by simp)]
    rw [ctrlStep_paintCheck cfg quietEnv _ rfl]
    rw [if_neg (by simp)]
  have e7 : step cfg quietEnv
      ⟨PC.capture, 0 + 10 * cfg.activation_delay, 7, true, false, false, Option.none,
       Holder.self, d0, [Event.acquire]⟩ =
      ⟨PC.render, 0 + 10 * cfg.activation_delay, 8, true, false, false, some d0,
       Holder.self, d0, [Event.acquire] ++ [Event.captureFrame]⟩ := by
    rw [step_quiet cfg _ (by simp)]
    rw [ctrlStep_capture cfg quietEnv _ rfl]
  have e8 : step cfg quietEnv
      ⟨PC.render, 0 + 10 * cfg.activation_delay, 8, true, false, false, some d0,
       Holder.self, d0, [Event.acquire] ++ [Event.captureFrame]⟩ =
      ⟨PC.setRend, 0 + 10 * cfg.activation_delay, 9, true, false, false, some d0,
       Holder.self, toastImage,
       ([Event.acquire] ++ [Event.captureFrame]) ++ [Event.paint]⟩ := by
    rw [step_quiet cfg _ (by simp)]
    rw [ctrlStep_render cfg quietEnv _ rfl]
  have e9 : step cfg quietEnv
      ⟨PC.setRend, 0 + 10 * cfg.activation_delay, 9, true, false, false, some d0,
       Holder.self, toastImage,
       ([Event.acquire] ++ [Event.captureFrame]) ++ [Event.paint]⟩ =
      ⟨PC.durCheck, 0 + 10 * cfg.activation_delay, 10, true, false, true, some d0,
       Holder.self, toastImage,
       (([Event.acquire] ++ [Event.captureFrame]) ++ [Event.paint]) ++
         [Event.setRendered]⟩ := by
    rw [step_quiet cfg _ (by simp)]
    rw [ctrlStep_setRend cfg quietEnv _ rfl]
  have e10 : step cfg quietEnv
      ⟨PC.durCheck, 0 + 10 * cfg.activation_delay, 10, true, false, true, some d0,
       Holder.self, toastImage,
       (([Event.acquire] ++ [Event.captureFrame]) ++ [Event.paint]) ++
         [Event.setRendered]⟩ =
      ⟨PC.sleepStep, 0 + 10 * cfg.activation_delay, 11, true, false, true, some d0,
       Holder.self, toastImage,
       (([Event.acquire] ++ [Event.captureFrame]) ++ [Event.paint]) ++
         [Event.setRendered]⟩ := by
    rw [step_quiet cfg _ (by simp)]
    rw [ctrlStep_durCheck cfg quietEnv _ rfl]
    rw [if_neg (by
      rintro ⟨h1, -⟩
      have h2 : 10 * (cfg.activation_delay + cfg.duration) <
          0 + 10 * cfg.activation_delay := h1
      omega)]
  have e11 : step cfg quietEnv
      ⟨PC.sleepStep, 0 + 10 * cfg.activation_delay, 11, true, false, true, some d0,
       Holder.self, toastImage,
       (([Event.acquire] ++ [Event.captureFrame]) ++ [Event.paint]) ++
         [Event.setRendered]⟩ =
      ⟨PC.loopCheck, 0 + 10 * cfg.activation_delay + 1, 12, true, false, true, some d0,
       Holder.self, toastImage,
       (([Event.acquire] ++ [Event.captureFrame]) ++ [Event.paint]) ++
         [Event.setRendered]⟩ := by
    rw [step_quiet cfg _ (by simp)]
    rw [ctrlStep_sleepStep cfg quietEnv _ rfl]
  have hfin : ((([Event.acquire] ++ [Event.captureFrame]) ++ [Event.paint]) ++
      [Event.setRendered]) =
      [Event.acquire, Event.captureFrame, Event.paint, Event.setRendered] := by simp
  show stepN cfg quietEnv 11 (step cfg quietEnv (initState d0)) = _
  rw [e0]
  show stepN cfg quietEnv 10 (step cfg quietEnv
    ⟨PC.sleepAct, 0, 1, true, false, false, Option.none, Holder.free, d0, []⟩) = _
  rw [e1]
  show stepN cfg quietEnv 9 (step cfg quietEnv
    ⟨PC.acquiring, 0 + 10 * cfg.activation_delay, 2, true, false, false, Option.none,
     Holder.free, d0, []⟩) = _
  rw [e2]
  show stepN cfg quietEnv 8 (step cfg quietEnv
    ⟨PC.loopCheck, 0 + 10 * cfg.activation_delay, 3, true, false, false, Option.none,
     Holder.self, d0, [Event.acquire]⟩) = _
  rw [e3]
  show stepN cfg quietEnv 7 (step cfg quietEnv
    ⟨PC.inputCheck, 0 + 10 * cfg.activation_delay, 4, true, false, false, Option.none,
     Holder.self, d0, [Event.acquire]⟩) = _
  rw [e4]
  show stepN cfg quietEnv 6 (step cfg quietEnv
    ⟨PC.yieldCheck, 0 + 10 * cfg.activation_delay, 5, true, false, false, Option.none,
     Holder.self, d0, [Event.acquire]⟩) = _
  rw [e5]
  show stepN cfg quietEnv 5 (step cfg quietEnv
    ⟨PC.paintCheck, 0 + 10 * cfg.activation_delay, 6, true, false, false, Option.none,
     Holder.self, d0, [Event.acquire]⟩) = _
  rw [e6]
  show stepN cfg quietEnv 4 (step cfg quietEnv
    ⟨PC.capture, 0 + 10 * cfg.activation_delay, 7, true, false, false, Option.none,
     Holder.self, d0, [Event.acquire]⟩) = _
  rw [e7]
  show stepN cfg quietEnv 3 (step cfg quietEnv
    ⟨PC.render, 0 + 10 * cfg.activation_delay, 8, true, false, false, some d0,
     Holder.self, d0, [Event.acquire] ++ [Event.captureFrame]⟩) = _
  rw [e8]
  show stepN cfg quietEnv 2 (step cfg quietEnv
    ⟨PC.setRend, 0 + 10 * cfg.activation_delay, 9, true, false, false, some d0,
     Holder.self, toastImage,
     ([Event.acquire] ++ [Event.captureFrame]) ++ [Event.paint]⟩) = _
  rw [e9]
  show stepN cfg quietEnv 1 (step cfg quietEnv
    ⟨PC.durCheck, 0 + 10 * cfg.activation_delay, 10, true, false, true, some d0,
     Holder.self, toastImage,
     (([Event.acquire] ++ [Event.captureFrame]) ++ [Event.paint]) ++
       [Event.setRendered]⟩) = _
  rw [e10]
  show stepN cfg quietEnv 0 (step cfg quietEnv
    ⟨PC.sleepStep, 0 + 10 * cfg.activation_delay, 11, true, false, true, some d0,
     Holder.self, toastImage,
     (([Event.acquire] ++ [Event.captureFrame]) ++ [Event.paint]) ++
       [Event.setRendered]⟩) = _
  rw [e11]
  show (⟨PC.loopCheck, 0 + 10 * cfg.activation_delay + 1, 12, true, false, true, some d0,
     Holder.self, toastImage,
     (([Event.acquire] ++ [Event.captureFrame]) ++ [Event.paint]) ++
       [Event.setRendered]⟩ : RunState) = _
  rw [hfin]
  rfl

end Toast

namespace Toast

/-- Claim C5: for every configuration, in an environment with no stop, no
input, no yield, no faults and the default always-true predicate, the
controller paints once and self-terminates exactly at the first poll tick
at which elapsed time exceeds activation_delay + duration, having
rendered; the prior frame is restored and the trace shows the duration
exit as the only exit cause, followed by the restore and the final
release. -/
theorem c5_duration_selftermination (cfg : Cfg) (d0 : Nat) :
    ∃ N, (run cfg quietEnv N d0).pc = PC.done ∧
      (run cfg quietEnv N d0).has_rendered = true ∧
      (run cfg quietEnv N d0).t = D cfg + 1 ∧
      (run cfg quietEnv N d0).display = d0 ∧
      (run cfg quietEnv N d0).trace =
        [Event.acquire, Event.captureFrame, Event.paint, Event.setRendered,
         Event.durationExit, Event.restore, Event.finalRelease] := by
  obtain ⟨N, h1, h2, h3, h4, h5⟩ := quiet_loop_done cfg d0 (10 * cfg.duration)
    (0 + 10 * cfg.activation_delay + 1) 12
    [Event.acquire, Event.captureFrame, Event.paint, Event.setRendered]
    (by unfold D; omega)
  refine ⟨12 + N, ?_, ?_, ?_, ?_, ?_⟩ <;>
    rw [run, stepN_add cfg quietEnv 12 N, quiet_first12]
  · exact h1
  · exact h2
  · exact h3
  · exact h4
  · rw [h5]
    rfl

end Toast
